import Mathlib

/-!
Shallow embedding of the `AreaPreview` component (an interactive rectangular
area editor): the `AreaData` record, the preview rectangle, the eight
size-altering squares (handles), the selection / visibility flags, and the
pointer-event handlers (`bindEventHandlers`), translated from the source.

Coordinates are modelled as rationals (the source works on JS numbers and
only ever adds, subtracts and halves them, which is exact).  Event emission
is made explicit: operations that may emit return a `List AreaPreviewEvent`
alongside the new state.
-/

/-- A 2D point, as used for square positions and rectangle anchor points. -/
structure Vec2 where
  x : ℚ
  y : ℚ
deriving DecidableEq, Repr

/-- Handle identity (`SizeAlteringSquarePosition`, imported as `Edge` in the
source).  The numbering matches the order in which the squares array is built
and repositioned in the source (index 0 = top-left, ..., index 7 =
bottom-right). -/
inductive Edge where
  | TopLeft
  | TopCenter
  | TopRight
  | LeftCenter
  | RightCenter
  | BottomLeft
  | BottomCenter
  | BottomRight
deriving DecidableEq, Repr

/-- The open `properties` mapping of an area: an association list from string
keys to (opaque) string values. -/
abbrev Props := List (String × String)

/-- Key lookup in a `Props` association list. -/
def lookupProp (ps : Props) (k : String) : Option String :=
  match ps with
  | [] => none
  | (k', v) :: rest => if k' = k then some v else lookupProp rest k

/-- Set a single key in a `Props` association list (overwrite if present,
append otherwise) — the effect of `this.areaData.properties[key] = value`. -/
def setProp (ps : Props) (k v : String) : Props :=
  match ps with
  | [] => [(k, v)]
  | (k', v') :: rest => if k' = k then (k', v) :: rest else (k', v') :: setProp rest k v

/-- Merge a source `Props` into a destination `Props`, source entries winning
(the effect of lodash `_.merge` on the nested `properties` object). -/
def mergeProps (dest src : Props) : Props :=
  src.foldl (fun d kv => setProp d kv.1 kv.2) dest

/-- The `AreaData` record (the edited entity). -/
structure AreaData where
  id : String
  name : String
  x : ℚ
  y : ℚ
  width : ℚ
  height : ℚ
  properties : Props
deriving DecidableEq, Repr

/-- `AtLeast<AreaData, "id">` / `Partial<AreaData>`: an update record where
every field may be absent.  (Where the source requires the `id` field the
definitions below always fill it in.) -/
structure AreaDelta where
  id : Option String
  name : Option String
  x : Option ℚ
  y : Option ℚ
  width : Option ℚ
  height : Option ℚ
  properties : Option Props
deriving DecidableEq, Repr

/-- The empty update record (no fields present). -/
def AreaDelta.empty : AreaDelta :=
  ⟨none, none, none, none, none, none, none⟩

/-- `_.merge(this.areaData, dataToModify)`: fields present in the delta
overwrite the stored ones; the nested `properties` object is merged key-wise. -/
def mergeArea (a : AreaData) (d : AreaDelta) : AreaData :=
  { id := d.id.getD a.id
    name := d.name.getD a.name
    x := d.x.getD a.x
    y := d.y.getD a.y
    width := d.width.getD a.width
    height := d.height.getD a.height
    properties :=
      match d.properties with
      | none => a.properties
      | some ps => mergeProps a.properties ps }

/-- The preview rectangle (`Phaser.GameObjects.Rectangle`): `x`,`y` are the
on-screen center, `displayWidth`/`displayHeight` the displayed size. -/
structure Preview where
  x : ℚ
  y : ℚ
  displayWidth : ℚ
  displayHeight : ℚ
  visible : Bool
deriving DecidableEq, Repr

/-- `preview.getTopLeft()`. -/
def Preview.getTopLeft (p : Preview) : Vec2 :=
  ⟨p.x - p.displayWidth / 2, p.y - p.displayHeight / 2⟩

/-- `preview.getTopCenter()`. -/
def Preview.getTopCenter (p : Preview) : Vec2 :=
  ⟨p.x, p.y - p.displayHeight / 2⟩

/-- `preview.getTopRight()`. -/
def Preview.getTopRight (p : Preview) : Vec2 :=
  ⟨p.x + p.displayWidth / 2, p.y - p.displayHeight / 2⟩

/-- `preview.getLeftCenter()`. -/
def Preview.getLeftCenter (p : Preview) : Vec2 :=
  ⟨p.x - p.displayWidth / 2, p.y⟩

/-- `preview.getRightCenter()`. -/
def Preview.getRightCenter (p : Preview) : Vec2 :=
  ⟨p.x + p.displayWidth / 2, p.y⟩

/-- `preview.getBottomLeft()`. -/
def Preview.getBottomLeft (p : Preview) : Vec2 :=
  ⟨p.x - p.displayWidth / 2, p.y + p.displayHeight / 2⟩

/-- `preview.getBottomCenter()`. -/
def Preview.getBottomCenter (p : Preview) : Vec2 :=
  ⟨p.x, p.y + p.displayHeight / 2⟩

/-- `preview.getBottomRight()`. -/
def Preview.getBottomRight (p : Preview) : Vec2 :=
  ⟨p.x + p.displayWidth / 2, p.y + p.displayHeight / 2⟩

/-- Positions of the eight size-altering squares, in array order. -/
structure Squares where
  topLeft : Vec2
  topCenter : Vec2
  topRight : Vec2
  leftCenter : Vec2
  rightCenter : Vec2
  bottomLeft : Vec2
  bottomCenter : Vec2
  bottomRight : Vec2
deriving DecidableEq, Repr

/-- `this.squares[e]`. -/
def Squares.get (sq : Squares) : Edge → Vec2
  | .TopLeft => sq.topLeft
  | .TopCenter => sq.topCenter
  | .TopRight => sq.topRight
  | .LeftCenter => sq.leftCenter
  | .RightCenter => sq.rightCenter
  | .BottomLeft => sq.bottomLeft
  | .BottomCenter => sq.bottomCenter
  | .BottomRight => sq.bottomRight

/-- Overwrite one square's position. -/
def Squares.set (sq : Squares) (e : Edge) (v : Vec2) : Squares :=
  match e with
  | .TopLeft => { sq with topLeft := v }
  | .TopCenter => { sq with topCenter := v }
  | .TopRight => { sq with topRight := v }
  | .LeftCenter => { sq with leftCenter := v }
  | .RightCenter => { sq with rightCenter := v }
  | .BottomLeft => { sq with bottomLeft := v }
  | .BottomCenter => { sq with bottomCenter := v }
  | .BottomRight => { sq with bottomRight := v }

/-- Overwrite one square's x coordinate (`square.x = ...`). -/
def Squares.setX (sq : Squares) (e : Edge) (x : ℚ) : Squares :=
  sq.set e ⟨x, (sq.get e).y⟩

/-- Overwrite one square's y coordinate (`square.y = ...`). -/
def Squares.setY (sq : Squares) (e : Edge) (y : ℚ) : Squares :=
  sq.set e ⟨(sq.get e).x, y⟩

/-- The square positions derived from the preview rectangle — the assignment
performed by `updateSquaresPositions`. -/
def squaresFromPreview (p : Preview) : Squares :=
  ⟨p.getTopLeft, p.getTopCenter, p.getTopRight, p.getLeftCenter,
   p.getRightCenter, p.getBottomLeft, p.getBottomCenter, p.getBottomRight⟩

/-- The full state of an `AreaPreview` instance: stored area data, preview
rectangle, the eight squares, their shared visibility, and the three
interaction flags. -/
structure AreaPreviewState where
  areaData : AreaData
  preview : Preview
  squares : Squares
  squaresVisible : Bool
  selected : Bool
  moved : Bool
  squareSelected : Bool
deriving DecidableEq, Repr

/-- Events emitted by the component (`AreaPreviewEvent`), with the `Update`
payload made explicit. -/
inductive AreaPreviewEvent where
  | Clicked
  | DoubleClicked
  | Update (data : AreaDelta)
  | Delete
deriving DecidableEq, Repr

/-- `createPreview`: the rectangle is created centered at
`(x + width/2, y + height/2)` with the area's size, and is visible. -/
def createPreview (a : AreaData) : Preview :=
  { x := a.x + a.width / 2
    y := a.y + a.height / 2
    displayWidth := a.width
    displayHeight := a.height
    visible := true }

/-- The constructor: preview centered on the area, squares at the rectangle's
anchor points, all flags false, squares hidden
(`showSizeAlteringSquares(false)`). -/
def mkAreaPreview (a : AreaData) : AreaPreviewState :=
  let p := createPreview a
  { areaData := a
    preview := p
    squares := squaresFromPreview p
    squaresVisible := false
    selected := false
    moved := false
    squareSelected := false }

/-- `showSizeAlteringSquares(show)`: showing is suppressed while the preview
rectangle is invisible; otherwise all eight squares get the new visibility. -/
def showSizeAlteringSquares (s : AreaPreviewState) (b : Bool) : AreaPreviewState :=
  if b ∧ ¬ s.preview.visible then s
  else { s with squaresVisible := b }

/-- `select(value)`: early-out when unchanged, else store the flag and
show/hide the squares. -/
def select (s : AreaPreviewState) (value : Bool) : AreaPreviewState :=
  if s.selected = value then s
  else showSizeAlteringSquares { s with selected := value } value

/-- `setVisible(value)`: sets the preview's visibility; forcing invisible also
hides the squares. -/
def setVisible (s : AreaPreviewState) (value : Bool) : AreaPreviewState :=
  let s1 := { s with preview := { s.preview with visible := value } }
  if value then s1 else showSizeAlteringSquares s1 false

/-- `updateSquaresPositions()`: reposition all eight squares onto the
preview's current anchor points. -/
def updateSquaresPositions (s : AreaPreviewState) : AreaPreviewState :=
  { s with squares := squaresFromPreview s.preview }

/-- `updatePreview(dataToModify)`: deep-merge into the stored area data,
recenter/resize the preview from the merged geometry, reposition the squares.
It emits nothing. -/
def updatePreview (s : AreaPreviewState) (d : AreaDelta) : AreaPreviewState × List AreaPreviewEvent :=
  let ad := mergeArea s.areaData d
  let pv := { s.preview with
    x := ad.x + ad.width / 2
    y := ad.y + ad.height / 2
    displayWidth := ad.width
    displayHeight := ad.height }
  (updateSquaresPositions { s with areaData := ad, preview := pv }, [])

/-- `setProperty(key, value)`: write one entry of the stored `properties`
and emit `Update` with `{ id, properties: { [key]: value } }`. -/
def setProperty (s : AreaPreviewState) (k v : String) : AreaPreviewState × List AreaPreviewEvent :=
  let s1 := { s with areaData :=
    { s.areaData with properties := setProp s.areaData.properties k v } }
  let d : AreaDelta :=
    { AreaDelta.empty with id := some s1.areaData.id, properties := some [(k, v)] }
  (s1, [AreaPreviewEvent.Update d])

/-- `{ id: this.areaData.id, ...dataToChange }`: an id field in the delta
wins over the stored id (object-spread semantics). -/
def withOwnId (s : AreaPreviewState) (d : AreaDelta) : AreaDelta :=
  { d with id := some (d.id.getD s.areaData.id) }

/-- `updateData(dataToChange)`: apply `updatePreview` to the id-completed
delta and emit `Update` with that same delta. -/
def updateData (s : AreaPreviewState) (d : AreaDelta) : AreaPreviewState × List AreaPreviewEvent :=
  let data := withOwnId s d
  ((updatePreview s data).1, [AreaPreviewEvent.Update data])

/-- `updateAreaDataWithSquaresAdjustments()`: commit the preview's current
geometry (top-left corner and display size) into the stored area data. -/
def updateAreaDataWithSquaresAdjustments (s : AreaPreviewState) : AreaPreviewState :=
  { s with areaData := { s.areaData with
    x := s.preview.x - s.preview.displayWidth / 2
    y := s.preview.y - s.preview.displayHeight / 2
    width := s.preview.displayWidth
    height := s.preview.displayHeight } }

/-- The `Update` payload built on release of the body or of a square:
`{ id, x, y, width, height }`, all four geometry fields from the preview. -/
def commitDelta (s : AreaPreviewState) : AreaDelta :=
  { AreaDelta.empty with
    id := some s.areaData.id
    x := some (s.preview.x - s.preview.displayWidth / 2)
    y := some (s.preview.y - s.preview.displayHeight / 2)
    width := some s.preview.displayWidth
    height := some s.preview.displayHeight }

/-- The body `DRAG` handler: while selected with no square active, the
rectangle's center tracks the pointer, squares follow, `moved` is set.
No event is emitted during the drag. -/
def dragBody (s : AreaPreviewState) (dragX dragY : ℚ) : AreaPreviewState :=
  if s.selected ∧ ¬ s.squareSelected then
    updateSquaresPositions
      { s with preview := { s.preview with x := dragX, y := dragY }, moved := true }
  else s

/-- The body `POINTER_UP` handler: if selected and a move occurred, clear
`moved`, commit the preview geometry and emit `Update` with the four
geometry fields plus `id`; otherwise do nothing. -/
def pointerUp (s : AreaPreviewState) : AreaPreviewState × List AreaPreviewEvent :=
  if s.selected ∧ s.moved then
    let s1 := updateAreaDataWithSquaresAdjustments { s with moved := false }
    (s1, [AreaPreviewEvent.Update (commitDelta s1)])
  else (s, [])

/-- The square `Selected` handler: set the `squareSelected` gate. -/
def selectSquare (s : AreaPreviewState) : AreaPreviewState :=
  { s with squareSelected := true }

/-- The square `Released` handler: clear the gate, commit the preview
geometry into the stored area data and emit `Update` with the four geometry
fields plus `id`. -/
def releaseSquare (s : AreaPreviewState) : AreaPreviewState × List AreaPreviewEvent :=
  let s1 := updateAreaDataWithSquaresAdjustments { s with squareSelected := false }
  (s1, [AreaPreviewEvent.Update (commitDelta s1)])

/-- `[Edge.RightCenter, Edge.LeftCenter, Edge.TopCenter, Edge.BottomCenter].includes(index)`. -/
def isMidpoint (e : Edge) : Bool :=
  match e with
  | .RightCenter | .LeftCenter | .TopCenter | .BottomCenter => true
  | _ => false

/-- The square `DRAG` handler, translated statement by statement.  The source
first moves the dragged square to the pointer, then branches on the handle
kind.  In the edge-midpoint branch the recomputed `newWidth`/`newHeight` are
block-local `const`s shadowing the outer zero-initialised `let`s, so the
trailing pair of minimum-size checks always sees `0 < 32` and resets the
dragged square's coordinates — harmlessly, because `updateSquaresPositions`
then overwrites every square from the (already updated) preview geometry.
No event is emitted during a drag frame. -/
def dragSquare (s : AreaPreviewState) (e : Edge) (dragX dragY : ℚ) : AreaPreviewState :=
  let oldX := (s.squares.get e).x
  let oldY := (s.squares.get e).y
  let sq1 := s.squares.set e ⟨dragX, dragY⟩
  if isMidpoint e then
    let newWidth := (sq1.get .RightCenter).x - (sq1.get .LeftCenter).x
    let newHeight := (sq1.get .BottomCenter).y - (sq1.get .TopCenter).y
    let step1 :=
      if 32 ≤ newWidth then
        ({ s.preview with
            displayWidth := newWidth
            x := (sq1.get .LeftCenter).x + newWidth / 2 }, sq1)
      else (s.preview, sq1.setX e oldX)
    let step2 :=
      if 32 ≤ newHeight then
        ({ step1.1 with
            displayHeight := newHeight
            y := (step1.2.get .TopCenter).y + newHeight / 2 }, step1.2)
      else (step1.1, step1.2.setY e oldY)
    let sqReset := (step2.2.setX e oldX).setY e oldY
    updateSquaresPositions { s with preview := step2.1, squares := sqReset }
  else
    let p := s.preview
    let geo :=
      match e with
      | .TopLeft =>
        let w := p.getRightCenter.x - dragX
        let h := p.getBottomCenter.y - dragY
        (w, h, dragX + w / 2, dragY + h / 2)
      | .TopRight =>
        let w := dragX - p.getLeftCenter.x
        let h := p.getBottomCenter.y - dragY
        (w, h, dragX - w / 2, dragY + h / 2)
      | .BottomLeft =>
        let w := p.getRightCenter.x - dragX
        let h := dragY - p.getTopCenter.y
        (w, h, dragX + w / 2, dragY - h / 2)
      | .BottomRight =>
        let w := dragX - p.getLeftCenter.x
        let h := dragY - p.getTopCenter.y
        (w, h, dragX - w / 2, dragY - h / 2)
      | _ => (0, 0, 0, 0)
    let step1 :=
      if 32 ≤ geo.1 then
        ({ p with
            displayWidth := geo.1
            x := geo.2.2.1 }, sq1)
      else (p, sq1.setX e oldX)
    let step2 :=
      if 32 ≤ geo.2.1 then
        ({ step1.1 with
            displayHeight := geo.2.1
            y := geo.2.2.2 }, step1.2)
      else (step1.1, step1.2.setY e oldY)
    updateSquaresPositions { s with preview := step2.1, squares := step2.2 }

/-- Run a list of drag frames, all on the same square. -/
def runResizeFrames (s : AreaPreviewState) (e : Edge) (frames : List (ℚ × ℚ)) : AreaPreviewState :=
  frames.foldl (fun st f => dragSquare st e f.1 f.2) s

/-- A complete resize interaction on one square: `Selected`, a list of drag
frames, then `Released` (which commits and emits). -/
def resizeInteraction (s : AreaPreviewState) (e : Edge) (frames : List (ℚ × ℚ)) :
    AreaPreviewState × List AreaPreviewEvent :=
  releaseSquare (runResizeFrames (selectSquare s) e frames)

/-- The squares are exactly at the preview's anchor points — established by
the constructor and re-established by `updateSquaresPositions` after every
geometry change. -/
def inSync (s : AreaPreviewState) : Prop :=
  s.squares = squaresFromPreview s.preview

/-- The `newWidth` a drag frame computes for handle `e` dragged to x-position
`dx`: corners measure against the preview's opposite edge-midpoint, the
horizontal midpoints against the other member of the horizontal pair (whose
dragged member has just been moved to `dx`), the vertical midpoints leave the
pair untouched. -/
def frameNewWidth (s : AreaPreviewState) (e : Edge) (dx : ℚ) : ℚ :=
  match e with
  | .TopLeft | .BottomLeft => s.preview.getRightCenter.x - dx
  | .TopRight | .BottomRight => dx - s.preview.getLeftCenter.x
  | .LeftCenter => s.squares.rightCenter.x - dx
  | .RightCenter => dx - s.squares.leftCenter.x
  | .TopCenter | .BottomCenter => s.squares.rightCenter.x - s.squares.leftCenter.x

/-- The `newHeight` a drag frame computes for handle `e` dragged to
y-position `dy`. -/
def frameNewHeight (s : AreaPreviewState) (e : Edge) (dy : ℚ) : ℚ :=
  match e with
  | .TopLeft | .TopRight => s.preview.getBottomCenter.y - dy
  | .BottomLeft | .BottomRight => dy - s.preview.getTopCenter.y
  | .TopCenter => s.squares.bottomCenter.y - dy
  | .BottomCenter => dy - s.squares.topCenter.y
  | .LeftCenter | .RightCenter => s.squares.bottomCenter.y - s.squares.topCenter.y

/-- The center x-coordinate the frame assigns when the width update is
accepted. -/
def acceptedX (s : AreaPreviewState) (e : Edge) (dx : ℚ) : ℚ :=
  match e with
  | .TopLeft | .BottomLeft => dx + frameNewWidth s e dx / 2
  | .TopRight | .BottomRight => dx - frameNewWidth s e dx / 2
  | .LeftCenter => dx + frameNewWidth s e dx / 2
  | .RightCenter | .TopCenter | .BottomCenter =>
    s.squares.leftCenter.x + frameNewWidth s e dx / 2

/-- The center y-coordinate the frame assigns when the height update is
accepted. -/
def acceptedY (s : AreaPreviewState) (e : Edge) (dy : ℚ) : ℚ :=
  match e with
  | .TopLeft | .TopRight => dy + frameNewHeight s e dy / 2
  | .BottomLeft | .BottomRight => dy - frameNewHeight s e dy / 2
  | .TopCenter => dy + frameNewHeight s e dy / 2
  | .BottomCenter | .LeftCenter | .RightCenter =>
    s.squares.topCenter.y + frameNewHeight s e dy / 2

/-- Tuple-free closed form of one drag frame: axis checks applied in
sequence, then all squares repositioned from the resulting preview. -/
def dragSquareSpec (s : AreaPreviewState) (e : Edge) (dx dy : ℚ) : AreaPreviewState :=
  let p2 :=
    if 32 ≤ frameNewWidth s e dx then
      { s.preview with displayWidth := frameNewWidth s e dx, x := acceptedX s e dx }
    else s.preview
  let p3 :=
    if 32 ≤ frameNewHeight s e dy then
      { p2 with displayHeight := frameNewHeight s e dy, y := acceptedY s e dy }
    else p2
  { s with preview := p3, squares := squaresFromPreview p3 }

/-- The handler and its closed form agree on every state, handle and pointer
position. -/
theorem dragSquare_eq (s : AreaPreviewState) (e : Edge) (dx dy : ℚ) :
    dragSquare s e dx dy = dragSquareSpec s e dx dy := by
  cases e <;>
    (unfold dragSquare dragSquareSpec frameNewWidth frameNewHeight acceptedX acceptedY
     dsimp only [isMidpoint, Squares.get, Squares.set, Squares.setX, Squares.setY,
       updateSquaresPositions]
     split_ifs <;> first | rfl | simp_all)

/-- A drag frame leaves the stored area data and all flags untouched. -/
theorem dragSquare_flags (s : AreaPreviewState) (e : Edge) (dx dy : ℚ) :
    (dragSquare s e dx dy).areaData = s.areaData ∧
    (dragSquare s e dx dy).squaresVisible = s.squaresVisible ∧
    (dragSquare s e dx dy).selected = s.selected ∧
    (dragSquare s e dx dy).moved = s.moved ∧
    (dragSquare s e dx dy).squareSelected = s.squareSelected := by
  rw [dragSquare_eq]
  unfold dragSquareSpec
  exact ⟨rfl, rfl, rfl, rfl, rfl⟩

/-- Displayed width after a drag frame: the computed width if accepted,
otherwise unchanged. -/
theorem dragSquare_displayWidth (s : AreaPreviewState) (e : Edge) (dx dy : ℚ) :
    (dragSquare s e dx dy).preview.displayWidth =
      if 32 ≤ frameNewWidth s e dx then frameNewWidth s e dx
      else s.preview.displayWidth := by
  rw [dragSquare_eq]
  unfold dragSquareSpec
  dsimp only
  split_ifs <;> rfl

/-- Center x after a drag frame: the accepted x if the width update is
accepted, otherwise unchanged. -/
theorem dragSquare_x (s : AreaPreviewState) (e : Edge) (dx dy : ℚ) :
    (dragSquare s e dx dy).preview.x =
      if 32 ≤ frameNewWidth s e dx then acceptedX s e dx else s.preview.x := by
  rw [dragSquare_eq]
  unfold dragSquareSpec
  dsimp only
  split_ifs <;> rfl

/-- Displayed height after a drag frame: the computed height if accepted,
otherwise unchanged. -/
theorem dragSquare_displayHeight (s : AreaPreviewState) (e : Edge) (dx dy : ℚ) :
    (dragSquare s e dx dy).preview.displayHeight =
      if 32 ≤ frameNewHeight s e dy then frameNewHeight s e dy
      else s.preview.displayHeight := by
  rw [dragSquare_eq]
  unfold dragSquareSpec
  dsimp only
  split_ifs <;> rfl

/-- Center y after a drag frame: the accepted y if the height update is
accepted, otherwise unchanged. -/
theorem dragSquare_y (s : AreaPreviewState) (e : Edge) (dx dy : ℚ) :
    (dragSquare s e dx dy).preview.y =
      if 32 ≤ frameNewHeight s e dy then acceptedY s e dy else s.preview.y := by
  rw [dragSquare_eq]
  unfold dragSquareSpec
  dsimp only
  split_ifs <;> rfl

/-- A drag frame never changes the preview's visibility. -/
theorem dragSquare_visible (s : AreaPreviewState) (e : Edge) (dx dy : ℚ) :
    (dragSquare s e dx dy).preview.visible = s.preview.visible := by
  rw [dragSquare_eq]
  unfold dragSquareSpec
  dsimp only
  split_ifs <;> rfl

/-- After a drag frame the squares again sit at the preview's anchor points
(the frame ends with `updateSquaresPositions`). -/
theorem dragSquare_inSync (s : AreaPreviewState) (e : Edge) (dx dy : ℚ) :
    inSync (dragSquare s e dx dy) := by
  rw [dragSquare_eq]
  unfold dragSquareSpec inSync
  rfl

/-- Closed form of the square `Released` handler. -/
theorem releaseSquare_eq (s : AreaPreviewState) :
    releaseSquare s =
      ({ s with
          squareSelected := false
          areaData := { s.areaData with
            x := s.preview.x - s.preview.displayWidth / 2
            y := s.preview.y - s.preview.displayHeight / 2
            width := s.preview.displayWidth
            height := s.preview.displayHeight } },
        [AreaPreviewEvent.Update
          { AreaDelta.empty with
              id := some s.areaData.id
              x := some (s.preview.x - s.preview.displayWidth / 2)
              y := some (s.preview.y - s.preview.displayHeight / 2)
              width := some s.preview.displayWidth
              height := some s.preview.displayHeight }]) := rfl

/-- `runResizeFrames` on the empty frame list. -/
theorem runResizeFrames_nil (s : AreaPreviewState) (e : Edge) :
    runResizeFrames s e [] = s := rfl

/-- `runResizeFrames` peels one frame. -/
theorem runResizeFrames_cons (s : AreaPreviewState) (e : Edge) (f : ℚ × ℚ)
    (fs : List (ℚ × ℚ)) :
    runResizeFrames s e (f :: fs) = runResizeFrames (dragSquare s e f.1 f.2) e fs := rfl

/-- An accepted axis update installs a value `≥ 32` and a rejected one keeps
the previous value, so the minimum-size bound is preserved across any frame
sequence. -/
theorem runResizeFrames_min_size (e : Edge) (frames : List (ℚ × ℚ)) :
    ∀ s : AreaPreviewState, 32 ≤ s.preview.displayWidth → 32 ≤ s.preview.displayHeight →
      32 ≤ (runResizeFrames s e frames).preview.displayWidth ∧
      32 ≤ (runResizeFrames s e frames).preview.displayHeight := by
  induction frames with
  | nil =>
    intro s hw hh
    exact ⟨hw, hh⟩
  | cons f fs ih =>
    intro s hw hh
    rw [runResizeFrames_cons]
    apply ih
    · rw [dragSquare_displayWidth]
      split_ifs with h
      · exact h
      · exact hw
    · rw [dragSquare_displayHeight]
      split_ifs with h
      · exact h
      · exact hh

/-- The concrete area of the spec's scenarios. -/
def areaA : AreaData := ⟨"a1", "n", 0, 0, 100, 100, []⟩

/-- An area whose caller-provided dimensions are below the 32-unit minimum. -/
def areaTiny : AreaData := ⟨"a1", "n", 0, 0, 10, 10, []⟩

/-- C1, amended: for every resize drag on any of the eight handles, the
committed area satisfies `width >= 32 && height >= 32` — provided the
rectangle's dimensions already satisfied the bound when the drag started.
(The bound is preserved, not established: it does not hold for every initial
area whose dimensions the caller provides, see the counterexample.) -/
theorem C1_resize_commit_min_size (s : AreaPreviewState) (e : Edge)
    (frames : List (ℚ × ℚ))
    (hw : 32 ≤ s.preview.displayWidth) (hh : 32 ≤ s.preview.displayHeight) :
    32 ≤ (resizeInteraction s e frames).1.areaData.width ∧
    32 ≤ (resizeInteraction s e frames).1.areaData.height := by
  have h := runResizeFrames_min_size e frames (selectSquare s) hw hh
  unfold resizeInteraction
  rw [releaseSquare_eq]
  exact h

/-- C1 counterexample: the claim quantifies over every initial area the
caller provides, but the caller only guarantees positive dimensions.  On a
10×10 area a drag of `RightCenter` to x=20 computes width 20 < 32, is
rejected, and the interaction commits the still-undersized `width = 10`. -/
theorem C1_counterexample :
    (resizeInteraction (mkAreaPreview areaTiny) Edge.RightCenter [(20, 5)]).1.areaData.width = 10 ∧
    ¬ 32 ≤ (resizeInteraction (mkAreaPreview areaTiny) Edge.RightCenter [(20, 5)]).1.areaData.width := by
  unfold resizeInteraction
  rw [runResizeFrames_cons, runResizeFrames_nil, dragSquare_eq, releaseSquare_eq]
  norm_num [dragSquareSpec, frameNewWidth, frameNewHeight, acceptedX, acceptedY,
    selectSquare, mkAreaPreview, createPreview, areaTiny, squaresFromPreview,
    Preview.getTopLeft, Preview.getTopCenter, Preview.getTopRight, Preview.getLeftCenter,
    Preview.getRightCenter, Preview.getBottomLeft, Preview.getBottomCenter,
    Preview.getBottomRight]

/-- Witness for C1: the amended statement evaluated on the 100×100 scenario
area with the rejected BottomRight drag. -/
theorem C1_resize_commit_min_size_witness :
    32 ≤ (mkAreaPreview areaA).preview.displayWidth ∧
    32 ≤ (mkAreaPreview areaA).preview.displayHeight ∧
    (32 ≤ (resizeInteraction (mkAreaPreview areaA) Edge.BottomRight [(10, 10)]).1.areaData.width ∧
     32 ≤ (resizeInteraction (mkAreaPreview areaA) Edge.BottomRight [(10, 10)]).1.areaData.height) :=
  ⟨by norm_num [mkAreaPreview, createPreview, areaA],
   by norm_num [mkAreaPreview, createPreview, areaA],
   C1_resize_commit_min_size (mkAreaPreview areaA) Edge.BottomRight [(10, 10)]
     (by norm_num [mkAreaPreview, createPreview, areaA])
     (by norm_num [mkAreaPreview, createPreview, areaA])⟩

/-- The square `DRAG` handler contains no `emit` call: drag frames produce
no events (events only arise from the `Released` commit). -/
def dragSquareEvents (_s : AreaPreviewState) (_e : Edge) (_dx _dy : ℚ) :
    List AreaPreviewEvent := []

/-- Anchor x-coordinates depend only on the preview's x-extent. -/
theorem anchorX_congr (p p' : Preview) (e : Edge) (hx : p'.x = p.x)
    (hw : p'.displayWidth = p.displayWidth) :
    ((squaresFromPreview p').get e).x = ((squaresFromPreview p).get e).x := by
  cases e <;>
    simp [squaresFromPreview, Squares.get, Preview.getTopLeft, Preview.getTopCenter,
      Preview.getTopRight, Preview.getLeftCenter, Preview.getRightCenter,
      Preview.getBottomLeft, Preview.getBottomCenter, Preview.getBottomRight, hx, hw]

/-- Anchor y-coordinates depend only on the preview's y-extent. -/
theorem anchorY_congr (p p' : Preview) (e : Edge) (hy : p'.y = p.y)
    (hh : p'.displayHeight = p.displayHeight) :
    ((squaresFromPreview p').get e).y = ((squaresFromPreview p).get e).y := by
  cases e <;>
    simp [squaresFromPreview, Squares.get, Preview.getTopLeft, Preview.getTopCenter,
      Preview.getTopRight, Preview.getLeftCenter, Preview.getRightCenter,
      Preview.getBottomLeft, Preview.getBottomCenter, Preview.getBottomRight, hy, hh]

/-- A freshly constructed preview has its squares at the anchor points. -/
theorem mkAreaPreview_inSync (a : AreaData) : inSync (mkAreaPreview a) := rfl

/-- C2: a computed width (resp. height) below 32 rejects that axis's update
for the frame — the extent and center on that axis are unchanged and the
dragged handle's coordinate on that axis ends at its pre-drag value; the two
axes are evaluated independently, so either can be accepted while the other
is rejected; a fully-rejected frame leaves the state unchanged and emits no
event; and on the 100×100 scenario area the BottomRight drag to (10,10)
commits unchanged geometry, the only emitted event carrying the unchanged
values. -/
theorem C2_axis_rejection (s : AreaPreviewState) (e : Edge) (dx dy : ℚ)
    (hs : inSync s) :
    (frameNewWidth s e dx < 32 →
      (dragSquare s e dx dy).preview.displayWidth = s.preview.displayWidth ∧
      (dragSquare s e dx dy).preview.x = s.preview.x ∧
      ((dragSquare s e dx dy).squares.get e).x = (s.squares.get e).x) ∧
    (frameNewHeight s e dy < 32 →
      (dragSquare s e dx dy).preview.displayHeight = s.preview.displayHeight ∧
      (dragSquare s e dx dy).preview.y = s.preview.y ∧
      ((dragSquare s e dx dy).squares.get e).y = (s.squares.get e).y) ∧
    (frameNewWidth s e dx < 32 → 32 ≤ frameNewHeight s e dy →
      (dragSquare s e dx dy).preview.displayHeight = frameNewHeight s e dy) ∧
    (32 ≤ frameNewWidth s e dx → frameNewHeight s e dy < 32 →
      (dragSquare s e dx dy).preview.displayWidth = frameNewWidth s e dx) ∧
    (frameNewWidth s e dx < 32 → frameNewHeight s e dy < 32 →
      dragSquare s e dx dy = s ∧ dragSquareEvents s e dx dy = []) ∧
    ((resizeInteraction (mkAreaPreview areaA) Edge.BottomRight [(10, 10)]).1.areaData =
        ⟨"a1", "n", 0, 0, 100, 100, []⟩ ∧
      (resizeInteraction (mkAreaPreview areaA) Edge.BottomRight [(10, 10)]).2 =
        [AreaPreviewEvent.Update ⟨some "a1", none, some 0, some 0, some 100, some 100, none⟩]) := by
  have hsq : s.squares = squaresFromPreview s.preview := hs
  have hsync : (dragSquare s e dx dy).squares =
      squaresFromPreview (dragSquare s e dx dy).preview := dragSquare_inSync s e dx dy
  refine ⟨?_, ?_, ?_, ?_, ?_, ?_⟩
  · intro h1
    have hw : (dragSquare s e dx dy).preview.displayWidth = s.preview.displayWidth := by
      rw [dragSquare_displayWidth, if_neg (not_le.mpr h1)]
    have hx : (dragSquare s e dx dy).preview.x = s.preview.x := by
      rw [dragSquare_x, if_neg (not_le.mpr h1)]
    refine ⟨hw, hx, ?_⟩
    rw [hsync, hsq]
    exact anchorX_congr s.preview (dragSquare s e dx dy).preview e hx hw
  · intro h2
    have hh : (dragSquare s e dx dy).preview.displayHeight = s.preview.displayHeight := by
      rw [dragSquare_displayHeight, if_neg (not_le.mpr h2)]
    have hy : (dragSquare s e dx dy).preview.y = s.preview.y := by
      rw [dragSquare_y, if_neg (not_le.mpr h2)]
    refine ⟨hh, hy, ?_⟩
    rw [hsync, hsq]
    exact anchorY_congr s.preview (dragSquare s e dx dy).preview e hy hh
  · intro h1 h2
    rw [dragSquare_displayHeight, if_pos h2]
  · intro h1 h2
    rw [dragSquare_displayWidth, if_pos h1]
  · intro h1 h2
    refine ⟨?_, rfl⟩
    rw [dragSquare_eq]
    unfold dragSquareSpec
    dsimp only
    rw [if_neg (not_le.mpr h1), if_neg (not_le.mpr h2), ← hsq]
  · constructor
    · unfold resizeInteraction
      rw [runResizeFrames_cons, runResizeFrames_nil, dragSquare_eq, releaseSquare_eq]
      norm_num [dragSquareSpec, frameNewWidth, frameNewHeight, acceptedX, acceptedY,
        selectSquare, mkAreaPreview, createPreview, areaA, squaresFromPreview,
        Preview.getTopLeft, Preview.getTopCenter, Preview.getTopRight, Preview.getLeftCenter,
        Preview.getRightCenter, Preview.getBottomLeft, Preview.getBottomCenter,
        Preview.getBottomRight]
    · unfold resizeInteraction
      rw [runResizeFrames_cons, runResizeFrames_nil, dragSquare_eq, releaseSquare_eq]
      norm_num [dragSquareSpec, frameNewWidth, frameNewHeight, acceptedX, acceptedY,
        selectSquare, mkAreaPreview, createPreview, areaA, squaresFromPreview,
        AreaDelta.empty, Preview.getTopLeft, Preview.getTopCenter, Preview.getTopRight,
        Preview.getLeftCenter, Preview.getRightCenter, Preview.getBottomLeft,
        Preview.getBottomCenter, Preview.getBottomRight]

/-- Witness for C2: on the scenario area, the BottomRight drag to (10,10)
computes width 10 < 32 and height 10 < 32 and the frame is a no-op. -/
theorem C2_axis_rejection_witness :
    inSync (mkAreaPreview areaA) ∧
    frameNewWidth (mkAreaPreview areaA) Edge.BottomRight 10 < 32 ∧
    frameNewHeight (mkAreaPreview areaA) Edge.BottomRight 10 < 32 ∧
    dragSquare (mkAreaPreview areaA) Edge.BottomRight 10 10 = mkAreaPreview areaA :=
  ⟨mkAreaPreview_inSync areaA,
   by norm_num [frameNewWidth, mkAreaPreview, createPreview, areaA, Preview.getLeftCenter],
   by norm_num [frameNewHeight, mkAreaPreview, createPreview, areaA, Preview.getTopCenter],
   ((C2_axis_rejection (mkAreaPreview areaA) Edge.BottomRight 10 10
       (mkAreaPreview_inSync areaA)).2.2.2.2.1
     (by norm_num [frameNewWidth, mkAreaPreview, createPreview, areaA, Preview.getLeftCenter])
     (by norm_num [frameNewHeight, mkAreaPreview, createPreview, areaA, Preview.getTopCenter])).1⟩

/-- The handles the handler's `switch(index)` treats as corners. -/
def isCorner (e : Edge) : Bool :=
  match e with
  | .TopLeft | .TopRight | .BottomLeft | .BottomRight => true
  | _ => false

/-- The x-coordinate of the edge-midpoint opposite a dragged corner (the
anchor the spec says width is measured against). -/
def oppAnchorX (e : Edge) (p : Preview) : ℚ :=
  match e with
  | .TopLeft | .BottomLeft => p.getRightCenter.x
  | _ => p.getLeftCenter.x

/-- The y-coordinate of the edge-midpoint opposite a dragged corner. -/
def oppAnchorY (e : Edge) (p : Preview) : ℚ :=
  match e with
  | .TopLeft | .TopRight => p.getBottomCenter.y
  | _ => p.getTopCenter.y

/-- The spec's corner width: measured between the dragged corner's x and the
opposite edge-midpoint's x, oriented outward. -/
def specCornerWidth (e : Edge) (p : Preview) (dx : ℚ) : ℚ :=
  match e with
  | .TopLeft | .BottomLeft => oppAnchorX e p - dx
  | _ => dx - oppAnchorX e p

/-- The spec's corner height: measured between the dragged corner's y and
the opposite edge-midpoint's y, oriented outward. -/
def specCornerHeight (e : Edge) (p : Preview) (dy : ℚ) : ℚ :=
  match e with
  | .TopLeft | .TopRight => oppAnchorY e p - dy
  | _ => dy - oppAnchorY e p

/-- The per-corner sign with which half the new extent is added to the
dragged corner's x to get the new center. -/
def cornerSignX (e : Edge) : ℚ :=
  match e with
  | .TopLeft | .BottomLeft => 1
  | _ => -1

/-- The per-corner sign with which half the new extent is added to the
dragged corner's y to get the new center. -/
def cornerSignY (e : Edge) : ℚ :=
  match e with
  | .TopLeft | .TopRight => 1
  | _ => -1

/-- The committed area's edge x-coordinate opposite the dragged corner. -/
def areaOppEdgeX (e : Edge) (a : AreaData) : ℚ :=
  match e with
  | .TopLeft | .BottomLeft => a.x + a.width
  | _ => a.x

/-- The committed area's edge y-coordinate opposite the dragged corner. -/
def areaOppEdgeY (e : Edge) (a : AreaData) : ℚ :=
  match e with
  | .TopLeft | .TopRight => a.y + a.height
  | _ => a.y

/-- C3: an accepted corner drag measures the new width/height between the
dragged corner and the two opposite edge-midpoints, places the new center at
`cornerPosition ± newExtent/2` with the per-corner sign, and keeps the
opposite edge-midpoint on each axis at its pre-drag coordinate, both on the
dragged preview and on the area committed at release. -/
theorem C3_corner_drag (s : AreaPreviewState) (e : Edge) (dx dy : ℚ)
    (hc : isCorner e = true)
    (hw : 32 ≤ specCornerWidth e s.preview dx)
    (hh : 32 ≤ specCornerHeight e s.preview dy) :
    (dragSquare s e dx dy).preview.displayWidth = specCornerWidth e s.preview dx ∧
    (dragSquare s e dx dy).preview.displayHeight = specCornerHeight e s.preview dy ∧
    (dragSquare s e dx dy).preview.x =
      dx + cornerSignX e * specCornerWidth e s.preview dx / 2 ∧
    (dragSquare s e dx dy).preview.y =
      dy + cornerSignY e * specCornerHeight e s.preview dy / 2 ∧
    oppAnchorX e (dragSquare s e dx dy).preview = oppAnchorX e s.preview ∧
    oppAnchorY e (dragSquare s e dx dy).preview = oppAnchorY e s.preview ∧
    areaOppEdgeX e (releaseSquare (dragSquare s e dx dy)).1.areaData =
      oppAnchorX e s.preview ∧
    areaOppEdgeY e (releaseSquare (dragSquare s e dx dy)).1.areaData =
      oppAnchorY e s.preview := by
  cases e <;>
    first
    | exact absurd hc (by decide)
    | (refine ⟨?_, ?_, ?_, ?_, ?_, ?_, ?_, ?_⟩ <;>
      simp only [dragSquare_displayWidth, dragSquare_displayHeight, dragSquare_x,
        dragSquare_y, releaseSquare_eq, specCornerWidth, specCornerHeight, oppAnchorX,
        oppAnchorY, cornerSignX, cornerSignY, areaOppEdgeX, areaOppEdgeY, frameNewWidth,
        frameNewHeight, acceptedX, acceptedY, Preview.getRightCenter, Preview.getLeftCenter,
        Preview.getTopCenter, Preview.getBottomCenter] at * <;>
      split_ifs <;> first | ring | linarith)

/-- Witness for C3: an accepted TopLeft drag to (20,30) on the scenario area
computes width 80 and height 70 and keeps the opposite edge-midpoints at
x = 100 and y = 100. -/
theorem C3_corner_drag_witness :
    isCorner Edge.TopLeft = true ∧
    32 ≤ specCornerWidth Edge.TopLeft (mkAreaPreview areaA).preview 20 ∧
    32 ≤ specCornerHeight Edge.TopLeft (mkAreaPreview areaA).preview 30 ∧
    oppAnchorX Edge.TopLeft (dragSquare (mkAreaPreview areaA) Edge.TopLeft 20 30).preview =
      oppAnchorX Edge.TopLeft (mkAreaPreview areaA).preview :=
  ⟨rfl,
   by norm_num [specCornerWidth, oppAnchorX, Preview.getRightCenter, mkAreaPreview,
     createPreview, areaA],
   by norm_num [specCornerHeight, oppAnchorY, Preview.getBottomCenter, mkAreaPreview,
     createPreview, areaA],
   (C3_corner_drag (mkAreaPreview areaA) Edge.TopLeft 20 30 rfl
     (by norm_num [specCornerWidth, oppAnchorX, Preview.getRightCenter, mkAreaPreview,
       createPreview, areaA])
     (by norm_num [specCornerHeight, oppAnchorY, Preview.getBottomCenter, mkAreaPreview,
       createPreview, areaA])).2.2.2.2.1⟩

/-- The midpoint handles that drag along the x axis. -/
def isHorizontalMid (e : Edge) : Bool :=
  match e with
  | .LeftCenter | .RightCenter => true
  | _ => false

/-- The midpoint handles that drag along the y axis. -/
def isVerticalMid (e : Edge) : Bool :=
  match e with
  | .TopCenter | .BottomCenter => true
  | _ => false

/-- One frame on a horizontal midpoint handle leaves the y-center and height
untouched: the vertical pair is unmoved, so the recomputed height equals the
current one and the recentered y lands on the old center. -/
theorem dragSquare_keeps_y (s : AreaPreviewState) (e : Edge) (dx dy : ℚ)
    (hs : inSync s) (he : isHorizontalMid e = true) :
    (dragSquare s e dx dy).preview.y = s.preview.y ∧
    (dragSquare s e dx dy).preview.displayHeight = s.preview.displayHeight := by
  have hsq : s.squares = squaresFromPreview s.preview := hs
  have htc : s.squares.topCenter =
      ⟨s.preview.x, s.preview.y - s.preview.displayHeight / 2⟩ := by rw [hsq]; rfl
  have hbc : s.squares.bottomCenter =
      ⟨s.preview.x, s.preview.y + s.preview.displayHeight / 2⟩ := by rw [hsq]; rfl
  cases e <;>
    first
    | exact absurd he (by decide)
    | (constructor
       · rw [dragSquare_y]
         split_ifs with h
         · simp only [acceptedY, frameNewHeight, htc, hbc]
           ring
         · rfl
       · rw [dragSquare_displayHeight]
         split_ifs with h
         · simp only [frameNewHeight, htc, hbc]
           ring
         · rfl)

/-- One frame on a vertical midpoint handle leaves the x-center and width
untouched. -/
theorem dragSquare_keeps_x (s : AreaPreviewState) (e : Edge) (dx dy : ℚ)
    (hs : inSync s) (he : isVerticalMid e = true) :
    (dragSquare s e dx dy).preview.x = s.preview.x ∧
    (dragSquare s e dx dy).preview.displayWidth = s.preview.displayWidth := by
  have hsq : s.squares = squaresFromPreview s.preview := hs
  have hlc : s.squares.leftCenter =
      ⟨s.preview.x - s.preview.displayWidth / 2, s.preview.y⟩ := by rw [hsq]; rfl
  have hrc : s.squares.rightCenter =
      ⟨s.preview.x + s.preview.displayWidth / 2, s.preview.y⟩ := by rw [hsq]; rfl
  cases e <;>
    first
    | exact absurd he (by decide)
    | (constructor
       · rw [dragSquare_x]
         split_ifs with h
         · simp only [acceptedX, frameNewWidth, hlc, hrc]
           ring
         · rfl
       · rw [dragSquare_displayWidth]
         split_ifs with h
         · simp only [frameNewWidth, hlc, hrc]
           ring
         · rfl)

/-- `dragSquare_keeps_y` extended over a whole frame sequence. -/
theorem runResizeFrames_keeps_y (e : Edge) (he : isHorizontalMid e = true)
    (frames : List (ℚ × ℚ)) :
    ∀ s : AreaPreviewState, inSync s →
      (runResizeFrames s e frames).preview.y = s.preview.y ∧
      (runResizeFrames s e frames).preview.displayHeight = s.preview.displayHeight := by
  induction frames with
  | nil =>
    intro s hsy
    exact ⟨rfl, rfl⟩
  | cons f fs ih =>
    intro s hsy
    rw [runResizeFrames_cons]
    have h1 := dragSquare_keeps_y s e f.1 f.2 hsy he
    have h2 := ih (dragSquare s e f.1 f.2) (dragSquare_inSync s e f.1 f.2)
    exact ⟨h2.1.trans h1.1, h2.2.trans h1.2⟩

/-- `dragSquare_keeps_x` extended over a whole frame sequence. -/
theorem runResizeFrames_keeps_x (e : Edge) (he : isVerticalMid e = true)
    (frames : List (ℚ × ℚ)) :
    ∀ s : AreaPreviewState, inSync s →
      (runResizeFrames s e frames).preview.x = s.preview.x ∧
      (runResizeFrames s e frames).preview.displayWidth = s.preview.displayWidth := by
  induction frames with
  | nil =>
    intro s hsy
    exact ⟨rfl, rfl⟩
  | cons f fs ih =>
    intro s hsy
    rw [runResizeFrames_cons]
    have h1 := dragSquare_keeps_x s e f.1 f.2 hsy he
    have h2 := ih (dragSquare s e f.1 f.2) (dragSquare_inSync s e f.1 f.2)
    exact ⟨h2.1.trans h1.1, h2.2.trans h1.2⟩

/-- C4: after a complete drag interaction on an edge-midpoint handle, the
center coordinate on the non-dragged axis and the extent on that axis are
both unchanged — on the preview and on the committed area. -/
theorem C4_edge_midpoint_keeps_other_axis (s : AreaPreviewState) (e : Edge)
    (frames : List (ℚ × ℚ)) (hs : inSync s) :
    (isHorizontalMid e = true →
      (resizeInteraction s e frames).1.preview.y = s.preview.y ∧
      (resizeInteraction s e frames).1.preview.displayHeight = s.preview.displayHeight ∧
      (resizeInteraction s e frames).1.areaData.y +
        (resizeInteraction s e frames).1.areaData.height / 2 = s.preview.y ∧
      (resizeInteraction s e frames).1.areaData.height = s.preview.displayHeight) ∧
    (isVerticalMid e = true →
      (resizeInteraction s e frames).1.preview.x = s.preview.x ∧
      (resizeInteraction s e frames).1.preview.displayWidth = s.preview.displayWidth ∧
      (resizeInteraction s e frames).1.areaData.x +
        (resizeInteraction s e frames).1.areaData.width / 2 = s.preview.x ∧
      (resizeInteraction s e frames).1.areaData.width = s.preview.displayWidth) := by
  have hsel : inSync (selectSquare s) := hs
  constructor
  · intro he
    have h := runResizeFrames_keeps_y e he frames (selectSquare s) hsel
    unfold resizeInteraction
    rw [releaseSquare_eq]
    refine ⟨h.1, h.2, ?_, h.2⟩
    dsimp only
    rw [sub_add_cancel]
    exact h.1
  · intro he
    have h := runResizeFrames_keeps_x e he frames (selectSquare s) hsel
    unfold resizeInteraction
    rw [releaseSquare_eq]
    refine ⟨h.1, h.2, ?_, h.2⟩
    dsimp only
    rw [sub_add_cancel]
    exact h.1

/-- Witness for C4: the RightCenter scenario drag keeps the committed height
and y-center of the 100×100 area. -/
theorem C4_edge_midpoint_keeps_other_axis_witness :
    inSync (mkAreaPreview areaA) ∧
    isHorizontalMid Edge.RightCenter = true ∧
    (resizeInteraction (mkAreaPreview areaA) Edge.RightCenter [(150, 50)]).1.areaData.height =
      (mkAreaPreview areaA).preview.displayHeight :=
  ⟨mkAreaPreview_inSync areaA, rfl,
   ((C4_edge_midpoint_keeps_other_axis (mkAreaPreview areaA) Edge.RightCenter [(150, 50)]
       (mkAreaPreview_inSync areaA)).1 rfl).2.2.2⟩

/-- The other member of an edge-midpoint pair. -/
def oppositeMid (e : Edge) : Edge :=
  match e with
  | .LeftCenter => .RightCenter
  | .RightCenter => .LeftCenter
  | .TopCenter => .BottomCenter
  | .BottomCenter => .TopCenter
  | x => x

/-- The spec's RightCenter scenario, evaluated: dragging RightCenter from
(100,50) to (150,50) on the 100×100 area commits and emits
`{x:0, y:0, width:150, height:100}`. -/
theorem rightCenter_scenario :
    (resizeInteraction (mkAreaPreview areaA) Edge.RightCenter [(150, 50)]).1.areaData =
      ⟨"a1", "n", 0, 0, 150, 100, []⟩ ∧
    (resizeInteraction (mkAreaPreview areaA) Edge.RightCenter [(150, 50)]).2 =
      [AreaPreviewEvent.Update ⟨some "a1", none, some 0, some 0, some 150, some 100, none⟩] := by
  constructor <;>
    (unfold resizeInteraction
     rw [runResizeFrames_cons, runResizeFrames_nil, dragSquare_eq, releaseSquare_eq]
     norm_num [dragSquareSpec, frameNewWidth, frameNewHeight, acceptedX, acceptedY,
       selectSquare, mkAreaPreview, createPreview, areaA, squaresFromPreview,
       AreaDelta.empty, Preview.getTopLeft, Preview.getTopCenter, Preview.getTopRight,
       Preview.getLeftCenter, Preview.getRightCenter, Preview.getBottomLeft,
       Preview.getBottomCenter, Preview.getBottomRight])

/-- C5: for an edge-midpoint drag the dragged-axis extent is recomputed from
the handle pair (`RightCenter.x - LeftCenter.x`, `BottomCenter.y -
TopCenter.y`, with the dragged member moved to the pointer) and, when
accepted, is installed with the opposite member of the pair kept at its
pre-drag coordinate and the dragged member landing at the pointer; on the
scenario area, dragging RightCenter from (100,50) to (150,50) commits and
emits `{x:0, y:0, width:150, height:100}`. -/
theorem C5_edge_midpoint_resize (s : AreaPreviewState) (e : Edge) (dx dy : ℚ)
    (hs : inSync s) (he : isMidpoint e = true) :
    frameNewWidth s e dx =
      ((s.squares.set e ⟨dx, dy⟩).get .RightCenter).x -
        ((s.squares.set e ⟨dx, dy⟩).get .LeftCenter).x ∧
    frameNewHeight s e dy =
      ((s.squares.set e ⟨dx, dy⟩).get .BottomCenter).y -
        ((s.squares.set e ⟨dx, dy⟩).get .TopCenter).y ∧
    (isHorizontalMid e = true → 32 ≤ frameNewWidth s e dx →
      (dragSquare s e dx dy).preview.displayWidth = frameNewWidth s e dx ∧
      ((dragSquare s e dx dy).squares.get (oppositeMid e)).x =
        (s.squares.get (oppositeMid e)).x ∧
      ((dragSquare s e dx dy).squares.get e).x = dx) ∧
    (isVerticalMid e = true → 32 ≤ frameNewHeight s e dy →
      (dragSquare s e dx dy).preview.displayHeight = frameNewHeight s e dy ∧
      ((dragSquare s e dx dy).squares.get (oppositeMid e)).y =
        (s.squares.get (oppositeMid e)).y ∧
      ((dragSquare s e dx dy).squares.get e).y = dy) ∧
    ((resizeInteraction (mkAreaPreview areaA) Edge.RightCenter [(150, 50)]).1.areaData =
        ⟨"a1", "n", 0, 0, 150, 100, []⟩ ∧
      (resizeInteraction (mkAreaPreview areaA) Edge.RightCenter [(150, 50)]).2 =
        [AreaPreviewEvent.Update ⟨some "a1", none, some 0, some 0, some 150, some 100, none⟩]) := by
  have hsync : (dragSquare s e dx dy).squares =
      squaresFromPreview (dragSquare s e dx dy).preview := dragSquare_inSync s e dx dy
  cases e <;>
    first
    | exact absurd he (by decide)
    | (refine ⟨by simp [frameNewWidth, Squares.set, Squares.get],
              by simp [frameNewHeight, Squares.set, Squares.get], ?_, ?_,
              rightCenter_scenario⟩ <;>
       intro hax h <;>
       first
       | exact absurd hax (by decide)
       | (refine ⟨?_, ?_, ?_⟩
          · first
            | rw [dragSquare_displayWidth, if_pos h]
            | rw [dragSquare_displayHeight, if_pos h]
          · rw [hsync]
            simp only [oppositeMid, squaresFromPreview, Squares.get, Preview.getTopLeft,
              Preview.getTopCenter, Preview.getTopRight, Preview.getLeftCenter,
              Preview.getRightCenter, Preview.getBottomLeft, Preview.getBottomCenter,
              Preview.getBottomRight, dragSquare_x, dragSquare_y, dragSquare_displayWidth,
              dragSquare_displayHeight, eq_true h, if_true, acceptedX, acceptedY,
              frameNewWidth, frameNewHeight]
            simp only [frameNewWidth, frameNewHeight] at h
            split_ifs <;> first | ring | linarith
          · rw [hsync]
            simp only [squaresFromPreview, Squares.get, Preview.getTopLeft,
              Preview.getTopCenter, Preview.getTopRight, Preview.getLeftCenter,
              Preview.getRightCenter, Preview.getBottomLeft, Preview.getBottomCenter,
              Preview.getBottomRight, dragSquare_x, dragSquare_y, dragSquare_displayWidth,
              dragSquare_displayHeight, eq_true h, if_true, acceptedX, acceptedY,
              frameNewWidth, frameNewHeight]
            simp only [frameNewWidth, frameNewHeight] at h
            split_ifs <;> first | ring | linarith))

/-- Witness for C5: the accepted RightCenter drag to x=150 installs the pair
width 150. -/
theorem C5_edge_midpoint_resize_witness :
    inSync (mkAreaPreview areaA) ∧
    isMidpoint Edge.RightCenter = true ∧
    32 ≤ frameNewWidth (mkAreaPreview areaA) Edge.RightCenter 150 ∧
    (dragSquare (mkAreaPreview areaA) Edge.RightCenter 150 50).preview.displayWidth =
      frameNewWidth (mkAreaPreview areaA) Edge.RightCenter 150 :=
  ⟨mkAreaPreview_inSync areaA, rfl,
   by norm_num [frameNewWidth, mkAreaPreview, createPreview, areaA, squaresFromPreview,
     Preview.getLeftCenter],
   ((C5_edge_midpoint_resize (mkAreaPreview areaA) Edge.RightCenter 150 50
       (mkAreaPreview_inSync areaA) rfl).2.2.1 rfl
     (by norm_num [frameNewWidth, mkAreaPreview, createPreview, areaA, squaresFromPreview,
       Preview.getLeftCenter])).1⟩

/-- C6: a body move (drag while selected with no square active, then
release) commits `x,y,width,height` recomputed from the final center and
size, emits a single `Update` carrying exactly those four fields plus `id`,
and resets `moved`; moving the scenario area's body from center (50,50) to
(80,80) emits `{x:30, y:30, width:100, height:100}`. -/
theorem C6_move_commit (s : AreaPreviewState) (dx dy : ℚ)
    (hsel : s.selected = true) (hsq : s.squareSelected = false) :
    (pointerUp (dragBody s dx dy)).1.moved = false ∧
    (pointerUp (dragBody s dx dy)).1.areaData.x = dx - s.preview.displayWidth / 2 ∧
    (pointerUp (dragBody s dx dy)).1.areaData.y = dy - s.preview.displayHeight / 2 ∧
    (pointerUp (dragBody s dx dy)).1.areaData.width = s.preview.displayWidth ∧
    (pointerUp (dragBody s dx dy)).1.areaData.height = s.preview.displayHeight ∧
    (pointerUp (dragBody s dx dy)).2 =
      [AreaPreviewEvent.Update
        { AreaDelta.empty with
            id := some s.areaData.id
            x := some (dx - s.preview.displayWidth / 2)
            y := some (dy - s.preview.displayHeight / 2)
            width := some s.preview.displayWidth
            height := some s.preview.displayHeight }] ∧
    (pointerUp (dragBody (select (mkAreaPreview areaA) true) 80 80)).2 =
      [AreaPreviewEvent.Update ⟨some "a1", none, some 30, some 30, some 100, some 100, none⟩] := by
  have h1 : select (mkAreaPreview areaA) true =
      { mkAreaPreview areaA with selected := true, squaresVisible := true } := by
    norm_num [select, showSizeAlteringSquares, mkAreaPreview, createPreview, areaA]
  have hscen : (pointerUp (dragBody (select (mkAreaPreview areaA) true) 80 80)).2 =
      [AreaPreviewEvent.Update ⟨some "a1", none, some 30, some 30, some 100, some 100, none⟩] := by
    rw [h1]
    norm_num [pointerUp, dragBody, updateSquaresPositions,
      updateAreaDataWithSquaresAdjustments, commitDelta, AreaDelta.empty, mkAreaPreview,
      createPreview, areaA, squaresFromPreview, Preview.getTopLeft, Preview.getTopCenter,
      Preview.getTopRight, Preview.getLeftCenter, Preview.getRightCenter,
      Preview.getBottomLeft, Preview.getBottomCenter, Preview.getBottomRight]
  refine ⟨?_, ?_, ?_, ?_, ?_, ?_, hscen⟩ <;>
    (simp only [pointerUp, dragBody, updateSquaresPositions,
       updateAreaDataWithSquaresAdjustments, commitDelta, AreaDelta.empty, hsel, hsq]
     norm_num)

/-- Witness for C6: after selecting the freshly created scenario area the
move interaction applies and clears the `moved` flag. -/
theorem C6_move_commit_witness :
    (select (mkAreaPreview areaA) true).selected = true ∧
    (select (mkAreaPreview areaA) true).squareSelected = false ∧
    (pointerUp (dragBody (select (mkAreaPreview areaA) true) 80 80)).1.moved = false :=
  ⟨rfl, rfl, (C6_move_commit (select (mkAreaPreview areaA) true) 80 80 rfl rfl).1⟩

/-- The prior area of the spec's round-trip property. -/
def areaPrior : AreaData := ⟨"a1", "Room", 1, 2, 40, 50, [("color", "red")]⟩

/-- C7: `updatePreview` (the `applyUpdate` operation) deep-merges the given
fields into the stored area, recomputes the preview's center and size from
the merged `x,y,width,height`, repositions all eight squares onto the merged
rectangle, and emits no event; the spec's round trip yields exactly the four
new fields merged with the prior `name`/`properties`, with every handle at
the corresponding corner/edge-midpoint of rectangle (10,20,100,50). -/
theorem C7_applyUpdate (s : AreaPreviewState) (d : AreaDelta) :
    (updatePreview s d).1.areaData = mergeArea s.areaData d ∧
    (updatePreview s d).1.preview.x =
      (mergeArea s.areaData d).x + (mergeArea s.areaData d).width / 2 ∧
    (updatePreview s d).1.preview.y =
      (mergeArea s.areaData d).y + (mergeArea s.areaData d).height / 2 ∧
    (updatePreview s d).1.preview.displayWidth = (mergeArea s.areaData d).width ∧
    (updatePreview s d).1.preview.displayHeight = (mergeArea s.areaData d).height ∧
    (updatePreview s d).1.squares = squaresFromPreview (updatePreview s d).1.preview ∧
    (updatePreview s d).2 = [] ∧
    (updatePreview (mkAreaPreview areaPrior)
        ⟨some "a1", none, some 10, some 20, some 100, some 50, none⟩).1.areaData =
      ⟨"a1", "Room", 10, 20, 100, 50, [("color", "red")]⟩ ∧
    (updatePreview (mkAreaPreview areaPrior)
        ⟨some "a1", none, some 10, some 20, some 100, some 50, none⟩).1.squares =
      ⟨⟨10, 20⟩, ⟨60, 20⟩, ⟨110, 20⟩, ⟨10, 45⟩, ⟨110, 45⟩, ⟨10, 70⟩, ⟨60, 70⟩, ⟨110, 70⟩⟩ := by
  refine ⟨rfl, rfl, rfl, rfl, rfl, rfl, rfl, ?_, ?_⟩ <;>
    norm_num [updatePreview, mergeArea, mergeProps, updateSquaresPositions, mkAreaPreview,
      createPreview, areaPrior, squaresFromPreview, Preview.getTopLeft, Preview.getTopCenter,
      Preview.getTopRight, Preview.getLeftCenter, Preview.getRightCenter,
      Preview.getBottomLeft, Preview.getBottomCenter, Preview.getBottomRight]

/-- Setting a key makes lookup of that key return the new value. -/
theorem lookup_setProp_same (ps : Props) (k v : String) :
    lookupProp (setProp ps k v) k = some v := by
  induction ps with
  | nil => simp [setProp, lookupProp]
  | cons kv rest ih =>
    obtain ⟨k0, v0⟩ := kv
    by_cases h : k0 = k
    · simp [setProp, lookupProp, h]
    · simp [setProp, lookupProp, h, ih]

/-- Setting a key leaves lookups of every other key unchanged. -/
theorem lookup_setProp_other (ps : Props) (k v k' : String) (hk : k' ≠ k) :
    lookupProp (setProp ps k v) k' = lookupProp ps k' := by
  induction ps with
  | nil => simp [setProp, lookupProp, Ne.symm hk]
  | cons kv rest ih =>
    obtain ⟨k0, v0⟩ := kv
    by_cases h : k0 = k
    · subst h
      simp [setProp, lookupProp, Ne.symm hk]
    · simp [setProp, lookupProp, h, ih]

/-- C8: `setProperty(key, value)` writes exactly one entry of the stored
properties mapping (lookups of every other key and all other Area fields,
the preview and the squares are untouched) and emits a single `Update`
whose payload is exactly `{id, properties: {key: value}}`; the scenario call
emits `{id:"a1", properties:{color:"red"}}` only. -/
theorem C8_setProperty (s : AreaPreviewState) (k v k' : String) (hk : k' ≠ k) :
    lookupProp (setProperty s k v).1.areaData.properties k = some v ∧
    lookupProp (setProperty s k v).1.areaData.properties k' =
      lookupProp s.areaData.properties k' ∧
    (setProperty s k v).1.areaData.id = s.areaData.id ∧
    (setProperty s k v).1.areaData.name = s.areaData.name ∧
    (setProperty s k v).1.areaData.x = s.areaData.x ∧
    (setProperty s k v).1.areaData.y = s.areaData.y ∧
    (setProperty s k v).1.areaData.width = s.areaData.width ∧
    (setProperty s k v).1.areaData.height = s.areaData.height ∧
    (setProperty s k v).1.preview = s.preview ∧
    (setProperty s k v).1.squares = s.squares ∧
    (setProperty s k v).2 =
      [AreaPreviewEvent.Update
        { AreaDelta.empty with id := some s.areaData.id, properties := some [(k, v)] }] ∧
    (setProperty (mkAreaPreview areaA) "color" "red").2 =
      [AreaPreviewEvent.Update
        ⟨some "a1", none, none, none, none, none, some [("color", "red")]⟩] :=
  ⟨lookup_setProp_same s.areaData.properties k v,
   lookup_setProp_other s.areaData.properties k v k' hk,
   rfl, rfl, rfl, rfl, rfl, rfl, rfl, rfl, rfl, rfl⟩

/-- Witness for C8: setting "color" to "red" on the scenario area, checked
against the distinct key "width". -/
theorem C8_setProperty_witness :
    ("width" : String) ≠ "color" ∧
    lookupProp (setProperty (mkAreaPreview areaA) "color" "red").1.areaData.properties
      "color" = some "red" :=
  ⟨by decide,
   (C8_setProperty (mkAreaPreview areaA) "color" "red" "width" (by decide)).1⟩

/-- One public selection/visibility call. -/
inductive SelOp where
  | sel (value : Bool)
  | vis (value : Bool)
deriving DecidableEq, Repr

/-- Apply one call. -/
def applySelOp (s : AreaPreviewState) (o : SelOp) : AreaPreviewState :=
  match o with
  | .sel v => select s v
  | .vis v => setVisible s v

/-- Apply a call sequence, oldest first. -/
def applySelOps (s : AreaPreviewState) (os : List SelOp) : AreaPreviewState :=
  os.foldl applySelOp s

/-- Each call preserves the implication: squares visible → selected and
rectangle visible. -/
theorem applySelOp_visibility (s : AreaPreviewState) (o : SelOp)
    (h : s.squaresVisible = true → s.selected = true ∧ s.preview.visible = true) :
    (applySelOp s o).squaresVisible = true →
      (applySelOp s o).selected = true ∧ (applySelOp s o).preview.visible = true := by
  cases o with
  | sel v =>
    simp only [applySelOp, select, showSizeAlteringSquares]
    split_ifs with h1 h2 <;> intro hsv <;> simp_all
  | vis v =>
    simp only [applySelOp, setVisible, showSizeAlteringSquares]
    split_ifs with h1 h2 <;> intro hsv <;> simp_all

/-- The implication extended over call sequences. -/
theorem applySelOps_visibility (os : List SelOp) :
    ∀ s : AreaPreviewState,
      (s.squaresVisible = true → s.selected = true ∧ s.preview.visible = true) →
      ((applySelOps s os).squaresVisible = true →
        (applySelOps s os).selected = true ∧
        (applySelOps s os).preview.visible = true) := by
  induction os with
  | nil =>
    intro s h
    exact h
  | cons o rest ih =>
    intro s h
    exact ih (applySelOp s o) (applySelOp_visibility s o h)

/-- `select(true)` always leaves the selected flag set. -/
theorem select_true_selected (s : AreaPreviewState) : (select s true).selected = true := by
  unfold select showSizeAlteringSquares
  split_ifs <;> simp_all

/-- C9 counterexample: `setVisible(false)`, `setSelected(true)`,
`setVisible(true)` reaches a state that is selected and visible yet has all
handles hidden — `setVisible(true)` never re-shows the handles of a shape
selected while hidden, so "visible iff selected and visible" fails. -/
theorem C9_counterexample :
    (applySelOps (mkAreaPreview areaA)
      [SelOp.vis false, SelOp.sel true, SelOp.vis true]).selected = true ∧
    (applySelOps (mkAreaPreview areaA)
      [SelOp.vis false, SelOp.sel true, SelOp.vis true]).preview.visible = true ∧
    (applySelOps (mkAreaPreview areaA)
      [SelOp.vis false, SelOp.sel true, SelOp.vis true]).squaresVisible = false :=
  ⟨rfl, rfl, rfl⟩

/-- C9, amended: in every state reachable by `setSelected`/`setVisible`
calls, handle visibility implies the shape is selected and visible (the
converse can fail after `setVisible(true)` on a shape selected while
hidden); handles are hidden initially; selecting while hidden suppresses
showing them; forcing invisible forces them hidden; `setSelected` is
idempotent. -/
theorem C9_handle_visibility (a : AreaData) (os : List SelOp) (s : AreaPreviewState) :
    ((applySelOps (mkAreaPreview a) os).squaresVisible = true →
      (applySelOps (mkAreaPreview a) os).selected = true ∧
      (applySelOps (mkAreaPreview a) os).preview.visible = true) ∧
    (mkAreaPreview a).squaresVisible = false ∧
    select (select s true) true = select s true ∧
    (setVisible s false).squaresVisible = false ∧
    (s.preview.visible = false → (select s true).squaresVisible = s.squaresVisible) := by
  refine ⟨?_, rfl, ?_, ?_, ?_⟩
  · exact applySelOps_visibility os (mkAreaPreview a) (fun h => nomatch h)
  · have hdef : select (select s true) true =
        if (select s true).selected = true then select s true
        else showSizeAlteringSquares { select s true with selected := true } true := rfl
    rw [hdef, if_pos (select_true_selected s)]
  · norm_num [setVisible, showSizeAlteringSquares]
  · intro hv
    unfold select showSizeAlteringSquares
    split_ifs <;> simp_all

/-- Witness for C9: selecting the fresh, visible scenario area shows the
handles, and the invariant instance then reports selected and visible. -/
theorem C9_handle_visibility_witness :
    (applySelOps (mkAreaPreview areaA) [SelOp.sel true]).squaresVisible = true ∧
    ((applySelOps (mkAreaPreview areaA) [SelOp.sel true]).selected = true ∧
      (applySelOps (mkAreaPreview areaA) [SelOp.sel true]).preview.visible = true) :=
  ⟨rfl,
   (C9_handle_visibility areaA [SelOp.sel true] (mkAreaPreview areaA)).1 rfl⟩

/-- C10: `updateData` performs the same deep-merge and square repositioning
as `updatePreview` (the `applyUpdate` operation) applied to the
id-completed delta, and additionally emits a single `Update` whose payload
is `{id}` together with exactly the given fields. -/
theorem C10_updateData (s : AreaPreviewState) (d : AreaDelta) (hid : d.id = none) :
    (updateData s d).1 = (updatePreview s { d with id := some s.areaData.id }).1 ∧
    (updateData s d).1.areaData =
      mergeArea s.areaData { d with id := some s.areaData.id } ∧
    (updateData s d).1.squares = squaresFromPreview (updateData s d).1.preview ∧
    (updateData s d).2 =
      [AreaPreviewEvent.Update { d with id := some s.areaData.id }] := by
  have hd : withOwnId s d = { d with id := some s.areaData.id } := by
    simp [withOwnId, hid]
  unfold updateData
  rw [hd]
  exact ⟨rfl, rfl, rfl, rfl⟩

/-- Witness for C10: routing `{x := 10}` through `updateData` on the
scenario area emits `{id:"a1", x:10}`. -/
theorem C10_updateData_witness :
    (⟨none, none, some 10, none, none, none, none⟩ : AreaDelta).id = none ∧
    (updateData (mkAreaPreview areaA) ⟨none, none, some 10, none, none, none, none⟩).2 =
      [AreaPreviewEvent.Update ⟨some "a1", none, some 10, none, none, none, none⟩] := by
  refine ⟨rfl, ?_⟩
  have h := (C10_updateData (mkAreaPreview areaA)
    ⟨none, none, some 10, none, none, none, none⟩ rfl).2.2.2
  rw [h]
  rfl
